import Mathlib

/-
Verification of the cross-engine column-operation dispatch and aggregation
layer (optimus).  The definitions below are shallow embeddings of the Python
source in src/optimus/engines/base/dask/columns.py and
src/optimus/engines/base/commons/functions.py; each definition's doc comment
names the source function it translates.  Machine floats only ever carry exact
small rationals in the scenarios below, so numeric cells are modelled by Int/ℚ
and the pandas/numpy null marker (np.nan / None) by an explicit constructor.
-/

/-- Model of a Python cell value as it appears in a dataframe column: the
canonical null marker (np.nan / None), an integer, a non-null float (carrying
an exact rational), a string, a boolean, or a list of [start, end] match
spans as produced by `find`. -/
inductive Value where
  | null
  | int (n : Int)
  | real (q : ℚ)
  | str (s : String)
  | bool (b : Bool)
  | spans (l : List (Nat × Nat))
  deriving DecidableEq, Repr

/-- Model of `pd.isnull` on the value domain used here: true exactly on the
canonical null marker. -/
def pdIsNull (v : Value) : Bool :=
  match v with
  | .null => true
  | _ => false

/-- Per-value classifier translated from `count_mismatch.count_dtypes._func`
(src/optimus/engines/base/dask/columns.py, lines 53-67): the profiler dtype
predicate is tested first; only when it rejects is `pd.isnull` consulted.
Returns 2 (MATCH), 1 (MISSING) or 0 (MISMATCH). -/
def countDtypesFunc (fd : Value → Bool) (v : Value) : Nat :=
  if fd v then 2
  else if pdIsNull v then 1
  else 0

/-- The per-column three-bucket tally `{"mismatch": _, "missing": _, "match": _}`
built by `count_dtypes` (the `match` key is spelled `matched` because `match`
is a Lean keyword). -/
structure MCounts where
  mismatch : Nat
  missing : Nat
  matched : Nat
  deriving DecidableEq, Repr

/-- Partition-level tally translated from `count_mismatch.count_dtypes`
(lines 50-72): maps `_func` over the partition's column values, counts the
occurrences of each code (`value_counts` merged over the `init` zero dict) and
returns the three buckets. -/
def countDtypes (fd : Value → Bool) (part : List Value) : MCounts :=
  { mismatch := part.countP (fun v => countDtypesFunc fd v == 0)
    missing := part.countP (fun v => countDtypesFunc fd v == 1)
    matched := part.countP (fun v => countDtypesFunc fd v == 2) }

/-- Componentwise sum of two tallies, as performed inside `count_mismatch.merge`
(lines 84-88). -/
def addMCounts (a b : MCounts) : MCounts :=
  { mismatch := a.mismatch + b.mismatch
    missing := a.missing + b.missing
    matched := a.matched + b.matched }

/-- Adds a tally for column `c` into the accumulating per-column dictionary,
modelling the Python dict update `r[i][k] = r[i][k] + j[k]` of
`count_mismatch.merge`. -/
def upsertAdd : List (String × MCounts) → String → MCounts → List (String × MCounts)
  | [], c, m => [(c, m)]
  | (c0, m0) :: rest, c, m =>
    if c0 = c then (c0, addMCounts m0 m) :: rest
    else (c0, m0) :: upsertAdd rest c m

/-- Merge translated from `count_mismatch.merge` (lines 79-90): starts from
zero counters per column and sums every partial tally of the flat
partition-by-column list into its column's entry. -/
def mergeMismatch (pdf : List (String × MCounts)) : List (String × MCounts) :=
  pdf.foldl (fun r e => upsertAdd r e.1 e.2) []

/-- Reads one column's merged tally out of the per-column dictionary, zero when
the column is absent (an absent column contributed no partial). -/
def lookupCounts (r : List (String × MCounts)) (col : String) : MCounts :=
  (r.lookup col).getD ⟨0, 0, 0⟩

/-- The total of a column's three buckets. -/
def sumThree (m : MCounts) : Nat :=
  m.mismatch + m.missing + m.matched

lemma countDtypesFunc_cases (fd : Value → Bool) (v : Value) :
    countDtypesFunc fd v = 0 ∨ countDtypesFunc fd v = 1 ∨ countDtypesFunc fd v = 2 := by
  unfold countDtypesFunc
  split
  · right; right; rfl
  · split
    · right; left; rfl
    · left; rfl

lemma sumThree_countDtypes (fd : Value → Bool) (part : List Value) :
    sumThree (countDtypes fd part) = part.length := by
  induction part with
  | nil => rfl
  | cons v vs ih =>
    simp only [countDtypes, List.countP_cons, sumThree] at *
    rcases countDtypesFunc_cases fd v with h | h | h <;> simp [h] <;> omega

lemma zero_addMCounts (m : MCounts) : addMCounts ⟨0, 0, 0⟩ m = m := by
  cases m
  simp [addMCounts]

lemma sumThree_addMCounts (a b : MCounts) :
    sumThree (addMCounts a b) = sumThree a + sumThree b := by
  cases a; cases b
  simp [sumThree, addMCounts]
  omega

lemma sumThree_foldl (ms : List MCounts) (acc : MCounts) :
    sumThree (ms.foldl addMCounts acc) = sumThree acc + (ms.map sumThree).sum := by
  induction ms generalizing acc with
  | nil => simp
  | cons m rest ih =>
    simp only [List.foldl_cons, List.map_cons, List.sum_cons, ih, sumThree_addMCounts]
    omega

lemma mergeMismatch_single_col_aux (col : String) (ms : List MCounts) (acc : MCounts) :
    (ms.map (fun m => (col, m))).foldl (fun r e => upsertAdd r e.1 e.2) [(col, acc)]
      = [(col, ms.foldl addMCounts acc)] := by
  induction ms generalizing acc with
  | nil => rfl
  | cons m rest ih =>
    simp only [List.map_cons, List.foldl_cons, upsertAdd, if_pos rfl]
    exact ih (addMCounts acc m)

lemma mergeMismatch_single_col (fd : Value → Bool) (col : String)
    (parts : List (List Value)) :
    lookupCounts (mergeMismatch (parts.map (fun part => (col, countDtypes fd part)))) col
      = (parts.map (countDtypes fd)).foldl addMCounts ⟨0, 0, 0⟩ := by
  cases parts with
  | nil => rfl
  | cons p ps =>
    simp only [mergeMismatch, List.map_cons, List.foldl_cons, upsertAdd]
    have h1 : upsertAdd [] col (countDtypes fd p) = [(col, countDtypes fd p)] := rfl
    rw [show (ps.map (fun part => (col, countDtypes fd part)))
          = ((ps.map (countDtypes fd)).map (fun m => (col, m))) by simp]
    rw [mergeMismatch_single_col_aux]
    rw [zero_addMCounts]
    simp [lookupCounts]

/-- C2: in `count_mismatch` every value of a profiled column falls in exactly
one of the three buckets — the classifier `_func` returns exactly one of the
codes 0/1/2 and the per-partition bucket totals sum to the partition length —
and for each column the merged `mismatch + missing + match` equals that
column's total row count over all partitions. -/
theorem count_mismatch_buckets_total (fd : Value → Bool) (col : String)
    (parts : List (List Value)) :
    (∀ v : Value,
      countDtypesFunc fd v = 0 ∨ countDtypesFunc fd v = 1 ∨ countDtypesFunc fd v = 2) ∧
    (∀ part : List Value, sumThree (countDtypes fd part) = part.length) ∧
    sumThree (lookupCounts
        (mergeMismatch (parts.map (fun part => (col, countDtypes fd part)))) col)
      = (parts.map List.length).sum := by
  refine ⟨countDtypesFunc_cases fd, sumThree_countDtypes fd, ?_⟩
  rw [mergeMismatch_single_col, sumThree_foldl]
  simp only [sumThree, List.map_map]
  have : (parts.map (sumThree ∘ countDtypes fd)) = parts.map List.length := by
    apply List.map_congr_left
    intro p _
    exact sumThree_countDtypes fd p
  simp only [sumThree] at this
  rw [this]
  simp

/-- C10: in `count_mismatch.count_dtypes._func` the dtype predicate is tested
before the null check — a value is classified MATCH (2) exactly when the
predicate accepts it, even when it is the canonical null marker, and MISSING
(1) exactly when the predicate rejects it and it is null. -/
theorem count_mismatch_predicate_before_null (fd : Value → Bool) (v : Value) :
    (countDtypesFunc fd v = 2 ↔ fd v = true) ∧
    (countDtypesFunc fd v = 1 ↔ (fd v = false ∧ pdIsNull v = true)) := by
  unfold countDtypesFunc
  constructor
  · constructor
    · intro h
      by_cases hfd : fd v
      · exact hfd
      · simp [hfd] at h
        split at h <;> omega
    · intro h
      simp [h]
  · constructor
    · intro h
      by_cases hfd : fd v
      · simp [hfd] at h
      · simp only [Bool.not_eq_true] at hfd
        simp only [hfd, if_false] at h
        refine ⟨hfd, ?_⟩
        by_cases hn : pdIsNull v
        · exact hn
        · simp [hn] at h
    · intro ⟨h1, h2⟩
      simp [h1, h2]

/-- Removes leading and trailing ASCII spaces from a character list, modelling
the surrounding-whitespace tolerance of the `fastnumbers` string parsers. -/
def stripSpaces (cs : List Char) : List Char :=
  ((cs.dropWhile (· = ' ')).reverse.dropWhile (· = ' ')).reverse

/-- Numeric value of a run of decimal digits. -/
def digitsVal (cs : List Char) : Nat :=
  cs.foldl (fun acc c => acc * 10 + (c.toNat - '0'.toNat)) 0

/-- Accepts a nonempty all-digit character run as a natural number literal. -/
def parseDigits (cs : List Char) : Option Int :=
  if cs.isEmpty = false ∧ cs.all Char.isDigit then some (digitsVal cs : Int) else none

/-- Integer-literal acceptance: optionally signed nonempty digit run after
stripping surrounding spaces; a float string such as "3.5" is rejected. -/
def parseIntLit (s : String) : Option Int :=
  match stripSpaces s.toList with
  | '+' :: rest => parseDigits rest
  | '-' :: rest => (parseDigits rest).map (fun n => -n)
  | rest => parseDigits rest

/-- Unsigned decimal real literal: digits with an optional fractional part
(exponents and the inf/nan spellings are outside the value domain exercised
here). -/
def parseUnsignedReal (cs : List Char) : Option ℚ :=
  let ip := cs.takeWhile Char.isDigit
  match cs.dropWhile Char.isDigit with
  | [] => if ip.isEmpty then none else some ((digitsVal ip : ℚ))
  | '.' :: fp =>
    if fp.all Char.isDigit ∧ (ip.isEmpty = false ∨ fp.isEmpty = false) then
      some ((digitsVal ip : ℚ) + (digitsVal fp : ℚ) / (10 : ℚ) ^ fp.length)
    else none
  | _ => none

/-- Signed decimal real literal after stripping surrounding spaces. -/
def parseRealLit (s : String) : Option ℚ :=
  match stripSpaces s.toList with
  | '+' :: rest => parseUnsignedReal rest
  | '-' :: rest => (parseUnsignedReal rest).map (fun q => -q)
  | rest => parseUnsignedReal rest

/-- Model of `fastnumbers.fast_int(value, default=np.nan)`: ints pass through,
booleans are Python int subclasses (True = 1), an actual float is truncated
toward zero, and a string converts only when it is an optionally signed digit
run — a float string such as "3.5" is not an integer literal and yields the
default (the null marker). -/
def fastInt : Value → Value
  | .int n => .int n
  | .bool b => .int (if b then 1 else 0)
  | .real q => .int (if 0 ≤ q then ⌊q⌋ else ⌈q⌉)
  | .str s =>
    match parseIntLit s with
    | some n => .int n
    | none => .null
  | .null => .null
  | .spans _ => .null

/-- Model of `fastnumbers.fast_float(value, default=np.nan)`: numbers convert,
strings convert when they parse as a decimal real, anything else yields the
default (the null marker). -/
def fastFloat : Value → Value
  | .int n => .real (n : ℚ)
  | .bool b => .real (if b then 1 else 0)
  | .real q => .real q
  | .str s =>
    match parseRealLit s with
    | some q => .real q
    | none => .null
  | .null => .null
  | .spans _ => .null

/-- Model of Python `bool(value)` truthiness on the value domain used here
(`bool(np.nan)` is True, but `_cast_bool` only reaches it after the null
check; `bool` of a list is its non-emptiness). -/
def pyBool : Value → Bool
  | .int n => n != 0
  | .real q => q != 0
  | .str s => s != ""
  | .bool b => b
  | .null => true
  | .spans l => !l.isEmpty

/-- Model of Python `str(value)` on the value domain used here (float and
list rendering are not exercised by any theorem below). -/
def pyStr : Value → String
  | .int n => toString n
  | .bool b => if b then "True" else "False"
  | .str s => s
  | .real q => toString q
  | .null => "nan"
  | .spans l => toString l

/-- Python-level failures surfaced by the embedded code paths. -/
inductive PyErr where
  | nameError
  | keyError
  | notFitted
  | valueError
  deriving DecidableEq, Repr

deriving instance DecidableEq for Except

/-- One cell under `cast` (src/optimus/engines/base/dask/columns.py, lines
567-677): dispatches `cast_func[dtype]` (lines 658-661) and runs the selected
`_cast_*` closure.  `kwargs` is assigned only under `if on_error == "nan"`
(lines 593-594), so `_cast_int`/`_cast_float` referencing `**kwargs` on a
non-null value raises a Python NameError for any other `on_error`; every
`_cast_*` except `_cast_object` returns `np.nan` on a null input before
touching `kwargs`; an unknown dtype raises KeyError at the `cast_func[dtype]`
lookup. -/
def castFuncValue (dtype onError : String) (v : Value) : Except PyErr Value :=
  if dtype = "int" then
    if pdIsNull v then .ok .null
    else if onError = "nan" then .ok (fastInt v)
    else .error .nameError
  else if dtype = "decimal" then
    if pdIsNull v then .ok .null
    else if onError = "nan" then .ok (fastFloat v)
    else .error .nameError
  else if dtype = "string" ∨ dtype = "zip_code" ∨ dtype = "missing" then
    if pdIsNull v then .ok .null else .ok (.str (pyStr v))
  else if dtype = "bool" then
    if pdIsNull v then .ok .null else .ok (.bool (pyBool v))
  else if dtype = "date" then
    if pdIsNull v then .ok .null else .ok v
  else if dtype ∈ ["array", "object", "gender", "ip", "url", "email", "credit_card_number"] then
    .ok v
  else .error .keyError

/-- A whole column under `cast.func` (lines 663-668): `pdf[input_col].apply`
runs the per-cell cast over the column in order and propagates the first
raised exception. -/
def castColumn (dtype onError : String) (vals : List Value) : Except PyErr (List Value) :=
  vals.mapM (castFuncValue dtype onError)

/-- The keys of the `cast_func` dispatch table (lines 658-661). -/
def supportedCastDtypes : List String :=
  ["int", "decimal", "string", "bool", "date", "array", "object", "gender",
   "ip", "url", "email", "credit_card_number", "zip_code", "missing"]

/-- C3 counterexample: casting ["1", "x", None, "3.5"] to int with
on_error="nan" does not return [1, NaN, NaN, 3] — `fast_int` rejects the float
string "3.5", so the last element becomes the null marker, not 3. -/
theorem cast_int_example_ne_claimed :
    castColumn "int" "nan" [.str "1", .str "x", .null, .str "3.5"]
      ≠ Except.ok [.int 1, .null, .null, .int 3] := by decide

/-- C3 amended: casting ["1", "x", None, "3.5"] to int with on_error="nan"
returns [1, NaN, NaN, NaN] and raises nothing, while on_error="raise" raises a
NameError already at the first non-null element "1" (the `kwargs` local is
never assigned outside the "nan" branch) — no CastError type exists in this
code at all. -/
theorem cast_int_example_amended :
    castColumn "int" "nan" [.str "1", .str "x", .null, .str "3.5"]
        = Except.ok [.int 1, .null, .null, .null] ∧
    castColumn "int" "raise" [.str "1", .str "x", .null, .str "3.5"]
        = Except.error .nameError := by decide

/-- C8: for every dtype in the `cast_func` table and under every `on_error`
policy, a null input maps to the canonical null marker and raises nothing —
each `_cast_*` either checks `pd.isnull` before touching `kwargs` or passes
the value through unchanged. -/
theorem cast_null_maps_to_null (dtype onError : String)
    (h : dtype ∈ supportedCastDtypes) :
    castFuncValue dtype onError Value.null = Except.ok Value.null := by
  fin_cases h <;> rfl

/-- Witness for C8 at dtype "int" under the unhandled "raise" policy. -/
theorem cast_null_maps_to_null_witness :
    castFuncValue "int" "raise" Value.null = Except.ok Value.null :=
  cast_null_maps_to_null "int" "raise" (by decide)

/-- Model of `fastnumbers.fast_real(x, default=np.nan)` used by `hist._hist`
(line 195): numbers pass through, booleans count as numbers, a string converts
when it parses as a decimal real, everything else (including the null marker)
becomes the not-a-number sentinel, modelled as `none`. -/
def fastReal : Value → Option ℚ
  | .int n => some (n : ℚ)
  | .real q => some q
  | .bool b => some (if b then 1 else 0)
  | .str s => parseRealLit s
  | .null => none
  | .spans _ => none

/-- Model of `np.linspace(mn, mx, num)` used by `hist.bins_col` (line 187):
`num` evenly spaced edges from `mn` to `mx` inclusive. -/
def linspace (mn mx : ℚ) (num : Nat) : List ℚ :=
  if num = 1 then [mn]
  else (List.range num).map (fun i => mn + i * (mx - mn) / ((num : ℚ) - 1))

/-- Model of `np.histogram(p, bins=edges)` with explicit monotone edges: bin i
counts the values v with edges[i] ≤ v < edges[i+1], the last bin also
including its right edge; the not-a-number sentinel satisfies no comparison
and never registers in any bin. -/
def npHistogram (vals : List (Option ℚ)) (edges : List ℚ) : List Nat :=
  (List.range (edges.length - 1)).map (fun i =>
    vals.countP (fun v =>
      match v with
      | none => false
      | some x =>
        decide (edges.getD i 0 ≤ x) &&
          (if i + 2 = edges.length then decide (x ≤ edges.getD (i + 1) 0)
           else decide (x < edges.getD (i + 1) 0))))

/-- Per-partition histogram translated from `hist._hist` (lines 193-197):
coerces each cell of the partition's column with `fast_real(x,
default=np.nan)` and counts against the global bin edges, returning
`{col_name: [counts, bin_edges]}`. -/
def histPart (part : List Value) (col : String) (edges : List ℚ) :
    String × (List Nat × List ℚ) :=
  (col, (npHistogram (part.map fastReal) edges, edges))

/-- One output bar of the final histogram, `{"lower": _, "upper": _,
"count": _}`. -/
structure HistBar where
  lower : ℚ
  upper : ℚ
  count : Nat
  deriving DecidableEq, Repr

/-- Python dict overwrite `_result[col_name] = ...` on the accumulating
per-column result of `_agg_hist`. -/
def upsertBars : List (String × List HistBar) → String → List HistBar →
    List (String × List HistBar)
  | [], c, b => [(c, b)]
  | (c0, b0) :: rest, c, b =>
    if c0 = c then (c0, b) :: rest else (c0, b0) :: upsertBars rest c b

/-- Result merge translated from `hist._agg_hist` (lines 199-215).  The
accumulator `x = np.zeros(buckets - 1)` is created once before the loop and
never reassigned: each entry computes `_count = np.sum([x, t[0]], axis=0)`
— that is `x + t[0]` with `x` still all zeros — and then overwrites
`_result[col_name]`, so per column only the last entry of `values` survives. -/
def aggHist (buckets : Nat) (values : List (String × (List Nat × List ℚ))) :
    List (String × List HistBar) :=
  values.foldl (fun result entry =>
    let x := List.replicate (buckets - 1) (0 : Nat)
    let cnt := List.zipWith (· + ·) x entry.2.1
    let bins := entry.2.2
    upsertBars result entry.1
      ((List.range cnt.length).map (fun i =>
        { lower := bins.getD i 0, upper := bins.getD (i + 1) 0,
          count := cnt.getD i 0 }))) []

/-- The non-null numeric cells of the whole table's column, in row order; on a
numeric column (`hist` only accepts those) a cell is an int, a float or the
null marker. -/
def colNumerics (parts : List (List Value)) : List ℚ :=
  parts.flatten.filterMap (fun v =>
    match v with
    | .int n => some ((n : ℚ))
    | .real q => some q
    | _ => none)

/-- Model of the global `df[columns].min()` reduction (line 189), pandas-style
skipping nulls.  The empty/all-null column (edges all NaN, no counts) is
outside every scenario proved below. -/
def colMin (parts : List (List Value)) : ℚ :=
  match colNumerics parts with
  | [] => 0
  | q :: qs => qs.foldl min q

/-- Model of the global `df[columns].max()` reduction (line 190). -/
def colMax (parts : List (List Value)) : ℚ :=
  match colNumerics parts with
  | [] => 0
  | q :: qs => qs.foldl max q

/-- The full `hist` dataflow for one numeric column (lines 180-226): global
min/max over all partitions, `buckets` evenly spaced edges from `bins_col`,
one `_hist` partial per partition in partition order, merged by `_agg_hist`. -/
def histPipeline (partitions : List (List Value)) (col : String) (buckets : Nat) :
    List (String × List HistBar) :=
  aggHist buckets (partitions.map (fun part =>
    histPart part col (linspace (colMin partitions) (colMax partitions) buckets)))

/-- C1: evaluating `hist` on the numeric column [0, 1, 2, 3] with buckets = 4
— the same rows as one partition versus split into two partitions — does not
give the same final result: `_agg_hist` never folds its zero accumulator
forward, so the two-partition run keeps only the last partition's counts
[0, 0, 2] where the one-partition run returns the true merged counts
[1, 1, 2]. -/
theorem hist_split_into_two_partitions_differs :
    histPipeline [[.int 0, .int 1, .int 2, .int 3]] "a" 4
        = [("a", [⟨0, 1, 1⟩, ⟨1, 2, 1⟩, ⟨2, 3, 2⟩])] ∧
    histPipeline [[.int 0, .int 1], [.int 2, .int 3]] "a" 4
        = [("a", [⟨0, 1, 0⟩, ⟨1, 2, 0⟩, ⟨2, 3, 2⟩])] ∧
    histPipeline [[.int 0, .int 1, .int 2, .int 3]] "a" 4
        ≠ histPipeline [[.int 0, .int 1], [.int 2, .int 3]] "a" 4 := by
  have hr : List.range 4 = [0, 1, 2, 3] := by decide
  have h1 : colMin [[Value.int 0, Value.int 1, Value.int 2, Value.int 3]] = 0 := by decide
  have h2 : colMax [[Value.int 0, Value.int 1, Value.int 2, Value.int 3]] = 3 := by decide
  have h3 : colMin [[Value.int 0, Value.int 1], [Value.int 2, Value.int 3]] = 0 := by decide
  have h4 : colMax [[Value.int 0, Value.int 1], [Value.int 2, Value.int 3]] = 3 := by decide
  have hl : linspace 0 3 4 = [0, 1, 2, 3] := by
    simp only [linspace, hr, List.map_cons, List.map_nil, if_neg (by norm_num : (4 : Nat) ≠ 1)]
    norm_num
  refine ⟨?_, ?_, ?_⟩ <;>
    simp only [histPipeline, h1, h2, h3, h4, hl] <;> decide

/-- Storage-level column dtypes, as consulted by the dtype filter. -/
inductive DType where
  | intT
  | floatT
  | strT
  | objT
  deriving DecidableEq, Repr

/-- Membership in `df.constants.NUMERIC_TYPES`. -/
def isNumericDType : DType → Bool
  | .intT => true
  | .floatT => true
  | _ => false

/-- Failures of the operation layer's error taxonomy (spec section 7). -/
inductive OptError where
  | unknownColumn
  | unsupportedDtype
  deriving DecidableEq, Repr

/-- Modelled from the spec: `parse_columns` with `filter_by_column_dtypes`
(optimus.helpers.columns — not under src/) resolves requested column names
against the table schema, failing with UnknownColumnError on a name absent
from the schema and with UnsupportedDtypeError when a requested column's
declared dtype is outside the filter set. -/
def parseColumnsNumeric (schema : List (String × DType)) (requested : List String) :
    Except OptError (List String) :=
  if requested.all (fun c => (schema.lookup c).isSome) then
    if requested.all (fun c => isNumericDType ((schema.lookup c).getD .objT)) then
      .ok requested
    else .error .unsupportedDtype
  else .error .unknownColumn

/-- The `hist` entry point for one requested column (lines 180-226): the
dtype-filtered column resolution runs first (line 183); only when it succeeds
is the partition-level dataflow of `histPipeline` built. -/
def histTable (schema : List (String × DType)) (partitions : List (List Value))
    (col : String) (buckets : Nat) : Except OptError (List (String × List HistBar)) :=
  match parseColumnsNumeric schema [col] with
  | .error e => .error e
  | .ok _ => .ok (histPipeline partitions col buckets)

/-- C4: requesting a histogram on a column whose declared dtype is not numeric
fails with UnsupportedDtypeError, and does so for every possible partition
content and bucket count — the failure is decided by the schema alone, before
any per-partition work is consulted. -/
theorem hist_non_numeric_dtype_fails (schema : List (String × DType)) (col : String)
    (dt : DType) (partitions : List (List Value)) (buckets : Nat)
    (hlook : schema.lookup col = some dt) (hnum : isNumericDType dt = false) :
    histTable schema partitions col buckets = .error .unsupportedDtype := by
  unfold histTable parseColumnsNumeric
  simp [hlook, hnum]

/-- Witness for C4: a single string column "a" with one string row. -/
theorem hist_non_numeric_dtype_fails_witness :
    histTable [("a", DType.strT)] [[Value.str "x"]] "a" 20
      = .error .unsupportedDtype :=
  hist_non_numeric_dtype_fails [("a", DType.strT)] "a" DType.strT [[Value.str "x"]] 20
    rfl rfl

/-- Metadata record modelled from the spec (section 3): a mapping from output
column name to the ordered list of Action Kinds recorded against it (the
parameter payload beside the kind plays no role in the claims below and is
omitted). -/
abbrev MetaRecord := List (String × List String)

/-- A logical table: the underlying engine dataframe (`df.data`, named
columns of cell values) together with its attached metadata record. -/
structure Table where
  data : List (String × List Value)
  meta : MetaRecord
  deriving DecidableEq, Repr

/-- Appends one action kind to a column's lineage list, creating the entry
when the column is new. -/
def appendAction : MetaRecord → String → String → MetaRecord
  | [], col, act => [(col, [act])]
  | (c0, acts) :: rest, col, act =>
    if c0 = col then (c0, acts ++ [act]) :: rest
    else (c0, acts) :: appendAction rest col act

/-- Modelled from the spec: `df.meta.preserve(df, action_kind, output_cols)`
(the Meta accessor is not under src/) — copy-forward semantics per section 6,
returning a new table whose metadata record carries one new entry tagged with
the action kind for each output column; the input table itself is untouched
(the other call sites in src, `nest` line 725 and `index_to_string` line 241,
accordingly bind the returned table). -/
def metaPreserve (t : Table) (action : String) (outCols : List String) : Table :=
  { t with meta := outCols.foldl (fun m c => appendAction m c action) t.meta }

/-- Model of pandas/dask `df.assign(**{col: vals})`: a new frame in which the
column is replaced in place when it exists and appended at the end when it is
new. -/
def assignCol (data : List (String × List Value)) (col : String) (vals : List Value) :
    List (String × List Value) :=
  if (data.lookup col).isSome then
    data.map (fun e => if e.1 = col then (e.1, vals) else e)
  else data ++ [(col, vals)]

/-- The metadata-relevant dataflow of `set`
(src/optimus/engines/base/dask/columns.py, lines 416-450).  The value
computation (`set_function_parser` / `set_func`, optimus.helpers.functions —
not under src/) is taken as the already-evaluated `finalValue`; what the
source then does is call `df.meta.preserve(df, Actions.SET.value,
output_cols)` WITHOUT binding its result (line 448) and return
`df.assign(**{output_col: final_value})` built from the original `df`. -/
def tableSet (t : Table) (outputCol : String) (finalValue : List Value) : Table :=
  let _discarded := metaPreserve t "set" [outputCol]
  { t with data := assignCol t.data outputCol finalValue }

/-- The table-level dataflow of `cast` under on_error="nan" (lines 567-677):
`df.map_partitions(func, ...)` rebuilds the frame with the cast column
assigned; no `meta.preserve` or `meta.set` call appears anywhere in `cast`,
so the metadata record is carried over unchanged. -/
def tableCast (t : Table) (inputCol outputCol dtype : String) :
    Except PyErr Table :=
  match castColumn dtype "nan" ((t.data.lookup inputCol).getD []) with
  | .error e => .error e
  | .ok vals => .ok { t with data := assignCol t.data outputCol vals }

/-- C5: evaluated at concrete one-column tables with empty metadata, `set`
returns a table whose metadata still has no entry at all for the output
column — the `meta.preserve` result on line 448 is discarded — and `cast`
returns the metadata record unchanged, recording no CAST entry, contradicting
the claim that every successful transform records one tagged entry per output
column. -/
theorem set_and_cast_record_no_metadata :
    (tableSet ⟨[("a", [Value.int 1])], []⟩ "a" [Value.int 2]).meta = [] ∧
    tableCast ⟨[("a", [Value.str "1"])], []⟩ "a" "a" "int"
      = .ok ⟨[("a", [Value.int 1])], []⟩ := by
  constructor
  · rfl
  · decide

/-- True when the second character list begins with the first. -/
def startsWithChars : List Char → List Char → Bool
  | [], _ => true
  | _ :: _, [] => false
  | p :: ps, c :: cs => p == c && startsWithChars ps cs

/-- Leftmost non-overlapping scan of `re.finditer` over the alternation
`'|'.join(_separator)` of literal separators: at each character position the
first alternative (in list order) that matches produces a [start, end) span
and the scan resumes past it.  Separators are the non-empty literal
substrings `find` is called with; positions are character offsets.  The fuel
argument is the remaining string length. -/
def scanPositions : Nat → List Char → Nat → List String → List (Nat × Nat)
  | 0, _, _, _ => []
  | _ + 1, [], _, _ => []
  | fuel + 1, c :: cs, pos, seps =>
    match seps.find? (fun sep => sep.length > 0 && startsWithChars sep.toList (c :: cs)) with
    | some sep =>
      (pos, pos + sep.length) ::
        scanPositions fuel ((c :: cs).drop sep.length) (pos + sep.length) seps
    | none => scanPositions fuel cs (pos + 1) seps

/-- Translated from `find.get_match_positions`
(src/optimus/engines/base/commons/functions.py, lines 112-123) on the
ignore_case=False path: for a string value, the [start, end] spans of the
leftmost non-overlapping matches of the separator alternation; None when
there is no match or the value is not a string. -/
def getMatchPositions (v : Value) (seps : List String) : Option (List (Nat × Nat)) :=
  match v with
  | .str s =>
    let posns := scanPositions s.length s.toList 0 seps
    if posns.length > 0 then some posns else none
  | _ => none

/-- Translated from `find` (functions.py, lines 99-134).  `dfd = df.data`
binds the input table's underlying dataframe by reference, and the loop
`dfd[col_name + "__match_positions__"] = dfd[col_name].astype("object")
.apply(get_match_positions, args=(sub,))` assigns the new columns into that
same frame in place; `df.new(dfd)` then wraps the mutated frame in a fresh
table handle (`df.new` is not under src/ and is modelled as carrying the
metadata store over).  The function returns the pair (returned table, state
of the input table after the call): both hold the mutated frame. -/
def findRun (t : Table) (columns : List String) (sub : List String) :
    Table × Table :=
  let dfd := columns.foldl (fun d col =>
    assignCol d (col ++ "__match_positions__")
      (((d.lookup col).getD []).map (fun v =>
        match getMatchPositions v sub with
        | some l => Value.spans l
        | none => Value.null))) t.data
  ({ data := dfd, meta := t.meta }, { t with data := dfd })

/-- C6 counterexample: `find` is not mutation-free — after `find(df, "a",
sub=["x"])` on a one-column table holding the single cell "x", the ORIGINAL
table's data is no longer its old value: the match-position column has been
written into the input's frame in place. -/
theorem find_mutates_input_table :
    ((findRun ⟨[("a", [Value.str "x"])], []⟩ ["a"] ["x"]).2).data
      ≠ [("a", [Value.str "x"])] := by decide

/-- C6 amended: transforms such as `set`/`cast` build their result with
`df.assign`/`map_partitions` and leave the input frame alone, but `find`
writes its match-position columns into the input table's underlying data in
place — afterwards the original table's column list has gained the
`__match_positions__` column, and the returned table shares that same mutated
frame. -/
theorem find_appends_match_column_to_input (t : Table) (col : String)
    (sub : List String)
    (hfresh : t.data.lookup (col ++ "__match_positions__") = none) :
    (findRun t [col] sub).2.data.map Prod.fst
        = t.data.map Prod.fst ++ [col ++ "__match_positions__"] ∧
    (findRun t [col] sub).1.data = (findRun t [col] sub).2.data := by
  constructor
  · simp only [findRun, List.foldl_cons, List.foldl_nil, assignCol, hfresh,
      Option.isSome_none, Bool.false_eq_true, if_neg, ite_false]
    simp
  · rfl

/-- Witness for C6 amended at the counterexample's concrete table. -/
theorem find_appends_match_column_to_input_witness :
    ((findRun ⟨[("a", [Value.str "x"])], []⟩ ["a"] ["x"]).2).data.map Prod.fst
        = ["a", "a" ++ "__match_positions__"] ∧
    (findRun ⟨[("a", [Value.str "x"])], []⟩ ["a"] ["x"]).1.data
        = (findRun ⟨[("a", [Value.str "x"])], []⟩ ["a"] ["x"]).2.data := by
  have h := find_appends_match_column_to_input ⟨[("a", [Value.str "x"])], []⟩ "a" ["x"] rfl
  exact ⟨h.1, h.2⟩

/-- Insertion of a string into an ascending sorted list. -/
def sortedInsert (x : String) : List String → List String
  | [] => [x]
  | y :: ys => if x ≤ y then x :: y :: ys else y :: sortedInsert x ys

/-- Model of `LabelEncoder.fit`: `classes_` is the sorted list of distinct
labels seen (np.unique of the column). -/
def leClasses (xs : List String) : List String :=
  xs.dedup.foldr sortedInsert []

/-- Model of the sklearn / dask_ml LabelEncoder object: `classes_` is present
only after fitting. -/
structure LabelEncoder where
  classes : Option (List String)
  deriving DecidableEq, Repr

/-- Model of `le.fit_transform(column.astype(str))` on a string-label column
(astype(str) is the identity there): fits `classes_` and maps each label to
its index in `classes_`; returns the indices together with the fitted
encoder state. -/
def leFitTransform (xs : List String) : List Nat × LabelEncoder :=
  (xs.map (fun x => (leClasses xs).indexOf x), ⟨some (leClasses xs)⟩)

/-- Model of `le.inverse_transform(indices)`: raises NotFittedError on an
encoder that was never fitted, ValueError on an index outside `classes_`,
and otherwise maps each index back to its label. -/
def leInverseTransform (le : LabelEncoder) (idx : List Nat) :
    Except PyErr (List String) :=
  match le.classes with
  | none => .error .notFitted
  | some cs =>
    if idx.all (fun i => i < cs.length) then .ok (idx.map (fun i => cs.getD i ""))
    else .error .valueError

/-- Translated from `DaskBaseColumns.string_to_index`
(src/optimus/engines/base/dask/columns.py, lines 245-262): a LabelEncoder
local to the call is fitted and applied via `le.fit_transform(
value.astype(str))`; only the index column survives the call — the fitted
encoder does not. -/
def daskStringToIndex (xs : List String) : List Nat :=
  (leFitTransform xs).1

/-- Translated from `DaskBaseColumns.index_to_string` (columns.py, lines
232-243): `le = preprocessing.LabelEncoder()` creates a FRESH encoder that is
never fitted, and `le.inverse_transform(df[input_col])` is called on it. -/
def daskIndexToString (idx : List Nat) : Except PyErr (List String) :=
  leInverseTransform ⟨none⟩ idx

/-- C7 counterexample: on the null-free string column ["a", "b"],
`string_to_index` followed by `index_to_string` (the DaskBaseColumns methods)
does not return the original values — `index_to_string` inverse-transforms
through a fresh unfitted LabelEncoder and raises NotFittedError instead. -/
theorem string_index_roundtrip_not_original :
    daskIndexToString (daskStringToIndex ["a", "b"]) ≠ Except.ok ["a", "b"] := by
  decide

lemma mem_sortedInsert (x a : String) (l : List String) :
    a ∈ sortedInsert x l ↔ a = x ∨ a ∈ l := by
  induction l with
  | nil => simp [sortedInsert]
  | cons y ys ih =>
    simp only [sortedInsert]
    split
    · simp [List.mem_cons]
    · simp only [List.mem_cons, ih]
      tauto

lemma mem_leClasses (x : String) (xs : List String) (h : x ∈ xs) :
    x ∈ leClasses xs := by
  unfold leClasses
  have hd : x ∈ xs.dedup := List.mem_dedup.mpr h
  generalize xs.dedup = l at hd
  induction l with
  | nil => cases hd
  | cons y ys ih =>
    simp only [List.foldr_cons]
    rw [mem_sortedInsert]
    rcases List.mem_cons.mp hd with h1 | h1
    · left; exact h1
    · right; exact ih h1

/-- C7 amended: the commons implementations (functions.py, lines 58-96) take
the label encoder as a shared parameter; with the SAME encoder state fitted
by `string_to_index`, `index_to_string` maps the index column back to the
original null-free string labels, for every input label list. -/
theorem commons_string_index_roundtrip (xs : List String) :
    leInverseTransform (leFitTransform xs).2 (leFitTransform xs).1
      = Except.ok xs := by
  simp only [leFitTransform, leInverseTransform]
  have hall : ∀ x ∈ xs, (leClasses xs).indexOf x < (leClasses xs).length := by
    intro x hx
    exact List.indexOf_lt_length.mpr (mem_leClasses x xs hx)
  rw [if_pos]
  · congr 1
    rw [List.map_map]
    have hmap : List.map ((fun i => (leClasses xs).getD i "")
        ∘ fun x => List.indexOf x (leClasses xs)) xs = List.map id xs := by
      apply List.map_congr_left
      intro x hx
      have hlt := hall x hx
      simp only [Function.comp_apply, id]
      rw [List.getD_eq_getElem _ _ hlt]
      exact List.getElem_indexOf hlt
    rw [hmap, List.map_id]
  · rw [List.all_eq_true]
    intro i hi
    rcases List.mem_map.mp hi with ⟨x, hx, rfl⟩
    exact decide_eq_true (hall x hx)

/-- The interpreter state backing a Dask task graph: the list of the source
table's partitions, into which the `df.to_delayed()` leaves refer by index. -/
abbrev Env := List (List Value)

/-- Evaluation of one partition leaf of a deferred graph: reads the partition
from the interpreter state and hands the state back. -/
def readPartition (env : Env) (i : Nat) : List Value × Env :=
  (env.getD i [], env)

/-- Evaluation of a list of partition leaves in order, threading the
interpreter state through each read. -/
def readPartitions (idxs : List Nat) (env : Env) : List (List Value) × Env :=
  match idxs with
  | [] => ([], env)
  | i :: rest =>
    let pe := readPartition env i
    let pse := readPartitions rest pe.2
    (pe.1 :: pse.1, pse.2)

/-- Materialisation of the deferred node returned by `count_mismatch` with
compute=False (columns.py, lines 44-99): the `merge` node over the
per-partition `count_dtypes` nodes over the partition leaves.  Every delayed
function is a pure function of its arguments (`count_dtypes` copies the
`init` dict before updating it, `merge` builds fresh dicts), so evaluation
only threads the interpreter state through the partition reads. -/
def materializeCountMismatch (fd : Value → Bool) (col : String) (idxs : List Nat)
    (env : Env) : List (String × MCounts) × Env :=
  let pse := readPartitions idxs env
  (mergeMismatch (pse.1.map (fun part => (col, countDtypes fd part))), pse.2)

/-- Materialisation of the deferred node returned by `hist` with
compute=False (lines 180-226): the min/max reduction nodes and the
per-partition `_hist` nodes read the same partition leaves, `bins_col` and
`_agg_hist` are pure; evaluation threads the interpreter state through the
reads. -/
def materializeHist (col : String) (buckets : Nat) (idxs : List Nat) (env : Env) :
    List (String × List HistBar) × Env :=
  let pse := readPartitions idxs env
  (histPipeline pse.1 col buckets, pse.2)

/-- Occurrence tally of a column's values in first-encounter order — pandas
`value_counts` (columns.py, line 158) before its descending ordering. -/
def tallyValues (vals : List Value) : List (Value × Nat) :=
  vals.foldl (fun acc v =>
    if (acc.lookup v).isSome then
      acc.map (fun e => if e.1 = v then (e.1, e.2 + 1) else e)
    else acc ++ [(v, 1)]) []

/-- Descending insertion by count (stable): pandas `value_counts` /
`nlargest` order entries by count descending; the deterministic tie order
chosen here does not affect any theorem below. -/
def insertByCount (x : Value × Nat) : List (Value × Nat) → List (Value × Nat)
  | [] => [x]
  | y :: ys => if y.2 < x.2 then x :: y :: ys else y :: insertByCount x ys

/-- Ordering of a tally by count descending. -/
def sortByCountDesc (l : List (Value × Nat)) : List (Value × Nat) :=
  l.foldr insertByCount []

/-- Model of `Series.nlargest(n)` on a value-counts series (columns.py, line
160): the n entries of largest count. -/
def nLargest (n : Nat) (l : List (Value × Nat)) : List (Value × Nat) :=
  (sortByCountDesc l).take n

/-- One entry of the frequency result: `{"value": _, "count": _}`, with the
percentage field written only by `freq_percentage`. -/
structure FreqEntry where
  value : Value
  count : Nat
  percentage : Option ℚ
  deriving DecidableEq, Repr

/-- Python `round(q, 2)` — banker's rounding at 2 decimal places. -/
def round2 (q : ℚ) : ℚ :=
  let x := q * 100
  let n := ⌊x⌋
  let r := if x - n < 1 / 2 then n
    else if x - n > 1 / 2 then n + 1
    else if n % 2 = 0 then n else n + 1
  (r : ℚ) / 100

/-- Translated from `frequency.series_to_dict` (columns.py, lines 122-137) on
the pandas path: the n-largest value-counts series becomes the column's list
of `{"value": _, "count": _}` entries. -/
def seriesToDict (col : String) (entries : List (Value × Nat)) :
    String × List FreqEntry :=
  (col, entries.map (fun e => { value := e.1, count := e.2, percentage := none }))

/-- Translated from `frequency.freq_percentage` (columns.py, lines 145-152):
writes `percentage = round(count * 100 / _total_rows, 2)` into every entry of
the result. -/
def freqPercentage (r : List (String × List FreqEntry)) (totalRows : Nat) :
    List (String × List FreqEntry) :=
  r.map (fun ce => (ce.1, ce.2.map (fun e =>
    { e with percentage := some (round2 ((e.count : ℚ) * 100 / (totalRows : ℚ))) })))

/-- Materialisation of the deferred node returned by `frequency` with
compute=False (columns.py, lines 117-178) for one column: the
`value_counts`/`nlargest` reduction reads the column's partitions (with the
non-numeric `astype(str)` preconversion of lines 154-156 when `nonNumeric`),
`series_to_dict` and `flat_dict` shape the result, and with percentage=True
the `freq_percentage` node also reads `delayed(len)(df)`.  `freq_percentage`
mutates only the entry dicts created within the same run, never the source
partitions, so evaluation again only threads the interpreter state through
the partition reads and hands it back unchanged. -/
def materializeFrequency (col : String) (n : Nat) (nonNumeric percentage : Bool)
    (idxs : List Nat) (env : Env) : List (String × List FreqEntry) × Env :=
  let pse := readPartitions idxs env
  let vals := if nonNumeric then pse.1.flatten.map (fun v => Value.str (pyStr v))
    else pse.1.flatten
  let base := [seriesToDict col (nLargest n (tallyValues vals))]
  (if percentage then freqPercentage base pse.1.flatten.length else base, pse.2)

lemma readPartitions_state (idxs : List Nat) (env : Env) :
    (readPartitions idxs env).2 = env := by
  induction idxs with
  | nil => rfl
  | cons i rest ih =>
    simp only [readPartitions, readPartition]
    exact ih

/-- C9: materializing the same deferred node twice returns identical results
both times with no hidden state mutation — for the `count_mismatch` graph,
the `frequency` graph (any top-n, string-preconversion and percentage
settings) and the `hist` graph, evaluation hands the interpreter state back
unchanged, and a second materialization started from the post-state of the
first returns exactly the first's value and state. -/
theorem materialize_twice_identical (fd : Value → Bool) (col : String)
    (buckets n : Nat) (nonNumeric percentage : Bool) (idxs : List Nat) (env : Env) :
    (materializeCountMismatch fd col idxs env).2 = env ∧
    materializeCountMismatch fd col idxs ((materializeCountMismatch fd col idxs env).2)
      = materializeCountMismatch fd col idxs env ∧
    (materializeFrequency col n nonNumeric percentage idxs env).2 = env ∧
    materializeFrequency col n nonNumeric percentage idxs
        ((materializeFrequency col n nonNumeric percentage idxs env).2)
      = materializeFrequency col n nonNumeric percentage idxs env ∧
    (materializeHist col buckets idxs env).2 = env ∧
    materializeHist col buckets idxs ((materializeHist col buckets idxs env).2)
      = materializeHist col buckets idxs env := by
  have h1 : (materializeCountMismatch fd col idxs env).2 = env := by
    simp only [materializeCountMismatch]
    exact readPartitions_state idxs env
  have h2 : (materializeFrequency col n nonNumeric percentage idxs env).2 = env := by
    simp only [materializeFrequency]
    exact readPartitions_state idxs env
  have h3 : (materializeHist col buckets idxs env).2 = env := by
    simp only [materializeHist]
    exact readPartitions_state idxs env
  refine ⟨h1, ?_, h2, ?_, h3, ?_⟩
  · rw [h1]
  · rw [h2]
  · rw [h3]
